import Mathlib

/-!
Shallow embedding of the convolution / max-pooling core of the tinynn
repository (src/core/layers.py), together with theorems settling the
frozen claims about its natural-language specification.

Tensors are modelled as total functions `Nat → Nat → Nat → Nat → ℚ`
(axes: batch N, height H, width W, channels C); shapes are carried
separately as quadruples of natural numbers, mirroring the numpy shape
tuples of the source.  All index arithmetic is in `Nat`; every place
where the Python source could go negative or crash is either guarded by
an explicit hypothesis or modelled with `Option` / `Except`.
-/

namespace TinyNN

/-- A rank-4 tensor, as a total function on indices (values are 64-bit
floats in the source, modelled as rationals). -/
abbrev Fun4 := Nat → Nat → Nat → Nat → ℚ

/-- A numpy shape tuple (N, H, W, C). -/
abbrev Shape4 := Nat × Nat × Nat × Nat

/-- The list of four pad amounts returned by the padding calculators,
in the source's documented order (top, bottom, left, right); the
source stores it as a Python list `pad` and uses
`((pad[0], pad[1]), (pad[2], pad[3]))` for the two spatial axes. -/
structure Pad4 where
  top : Nat
  bottom : Nat
  left : Nat
  right : Nat
deriving DecidableEq

/-- Runtime errors a backward/forward call of the source can raise.
`stateError` is listed because the specification demands it; the source
itself never raises it (it has no such class). -/
inductive PyError where
  | typeError : PyError
  | valueError : PyError
  | indexError : PyError
  | stateError : PyError
deriving DecidableEq

/-- The all-ones rank-4 tensor (used as input and as the all-ones
gradient of the specification's test properties). -/
def onesGrad : Fun4 := fun _ _ _ _ => 1

namespace Conv2D

/-- Translation of `Conv2D._get_padding(ks, mode)` (layers.py:189-216).
`ks = [kh, kw]`.  For an unrecognized mode the Python code prints
"Invalid mode" and returns `None`, modelled as `none`.  Note the FULL
branch returns `[ks[0]-1, ks[1]-1, ks[0]-1, ks[1]-1]`, i.e. (top,
bottom, left, right) = (kh-1, kw-1, kh-1, kw-1), exactly as the source
writes it.  Subtractions are Nat subtractions; for `kh, kw ≥ 1` they
agree with the Python integer arithmetic. -/
def getPadding (kh kw : Nat) (mode : String) : Option Pad4 :=
  if mode = "FULL" then
    some ⟨kh - 1, kw - 1, kh - 1, kw - 1⟩
  else if mode = "VALID" then
    some ⟨0, 0, 0, 0⟩
  else if mode = "SAME" then
    some ⟨(kh - 1) / 2, (kh - 1) / 2 + (if kh % 2 = 0 then 1 else 0),
          (kw - 1) / 2, (kw - 1) / 2 + (if kw % 2 = 0 then 1 else 0)⟩
  else
    none

/-- Row index of the original (unpadded) tensor read by row `y` of the
edge-replicated padded tensor (`np.pad(..., mode="edge")`,
layers.py:108-110): rows above the top pad replicate row 0 (Nat
subtraction truncates at 0), rows below replicate the last row. -/
def edgeIdx (pad size y : Nat) : Nat := min (size - 1) (y - pad)

/-- The edge-replicated padded input of `Conv2D.forward`
(layers.py:109-110), as a function on padded coordinates. -/
def padEdge (inputs : Fun4) (inH inW padTop padLeft : Nat) : Fun4 :=
  fun n y x c => inputs n (edgeIdx padTop inH y) (edgeIdx padLeft inW x) c

/-- Entry (n, i, j, t) of the im2col patch matrix `X_matrix`
(layers.py:122-146): output position (i, j) gathers the kh×kw×C patch
at (i·sh, j·sw) of the padded tensor and flattens it row-major, so flat
index t decodes to the kernel offset (t / (kw·C), (t / C) % kw, t % C).
The source stores the matrix as (batch·outH·outW, ker_len) after a
transpose; row (n, i, j) of that layout is exactly this function. -/
def patchEntry (padded : Fun4) (kw inC sh sw : Nat) (n i j t : Nat) : ℚ :=
  padded n (i * sh + t / (kw * inC)) (j * sw + (t / inC) % kw) (t % inC)

/-- Entry (t, o) of `W_matrix = kernel.reshape((ker_len, -1))`
(layers.py:149): the same row-major flattening of the (kh, kw, C)
kernel axes. -/
def kernelEntry (w : Fun4) (kw inC : Nat) (t o : Nat) : ℚ :=
  w (t / (kw * inC)) ((t / inC) % kw) (t % inC) o

/-- The cache dictionary written by `Conv2D.forward` (layers.py:152-156):
batch size, input/padded/output image sizes, kernel size, stride, pad
amounts, the patch matrix and the flattened kernel matrix. -/
structure Cache where
  inN : Nat
  inH : Nat
  inW : Nat
  inC : Nat
  kH : Nat
  kW : Nat
  sH : Nat
  sW : Nat
  pad : Pad4
  padH : Nat
  padW : Nat
  outH : Nat
  outW : Nat
  outC : Nat
  Xmat : Nat → Nat → Nat → Nat → ℚ
  Wmat : Nat → Nat → ℚ

/-- Output tensor and cache produced by one `Conv2D.forward` call. -/
structure ForwardResult where
  out : Fun4
  cache : Cache

/-- Body of `Conv2D.forward` (layers.py:98-159) after the pad amounts
have been computed: pad by edge replication, compute the output sizes
`out_dim = (padded_dim - kernel_dim) / stride + 1` (Python
`int((padded - k) / s + 1)`, which for `padded ≥ k` is this Nat
expression), build the patch and kernel matrices, multiply and add the
bias, and fill the cache. -/
def forwardFrom (pad : Pad4) (kh kw inC outC sh sw : Nat) (w : Fun4) (b : Nat → ℚ)
    (inN inH inW : Nat) (inputs : Fun4) : ForwardResult :=
  let padded := padEdge inputs inH inW pad.top pad.left
  let padH := inH + pad.top + pad.bottom
  let padW := inW + pad.left + pad.right
  let outH := (padH - kh) / sh + 1
  let outW := (padW - kw) / sw + 1
  let kerLen := kh * kw * inC
  let Xmat := patchEntry padded kw inC sh sw
  let Wmat := kernelEntry w kw inC
  { out := fun n i j o => (∑ t ∈ Finset.range kerLen, Xmat n i j t * Wmat t o) + b o,
    cache := { inN := inN, inH := inH, inW := inW, inC := inC, kH := kh, kW := kw,
               sH := sh, sW := sw, pad := pad, padH := padH, padW := padW,
               outH := outH, outW := outW, outC := outC, Xmat := Xmat, Wmat := Wmat } }

/-- `Conv2D.forward` (layers.py:98-159): compute the pad amounts from
the kernel size and mode, then run the padded forward pass.  `none`
models the crash the source would hit if `_get_padding` returned
`None` (the constructor's assert normally prevents this). -/
def forward (mode : String) (kh kw inC outC sh sw : Nat) (w : Fun4) (b : Nat → ℚ)
    (inN inH inW : Nat) (inputs : Fun4) : Option ForwardResult :=
  (getPadding kh kw mode).map
    (fun pad => forwardFrom pad kh kw inC outC sh sw w b inN inH inW inputs)

/-- Entry (n, i, j, t) of `d_X_matrix = grad @ W_matrix.T`
(layers.py:177). -/
def dXmat (cache : Cache) (grad : Fun4) (n i j t : Nat) : ℚ :=
  ∑ o ∈ Finset.range cache.outC, grad n i j o * cache.Wmat t o

end Conv2D

/-- The list of output positions (i, j) visited row-major by the nested
loops of the source (`for i, ... : for j, ...`). -/
def positions (m w : Nat) : List (Nat × Nat) :=
  (List.range (m * w)).map (fun k => (k / w, k % w))

namespace Conv2D

/-- One iteration of the scatter-accumulate loop of `Conv2D.backward`
(layers.py:180-184): `d_in[:, col:col+k_h, row:row+k_w, :] += patch`
where `patch = d_X_matrix[:, i, j, :].reshape((in_n, k_h, k_w, in_c))`;
cells outside the receptive field of output position `ij` keep the
buffer value. -/
def addPatch (kh kw inC sh sw : Nat) (dX : Nat → Nat → Nat → Nat → ℚ)
    (buf : Fun4) (ij : Nat × Nat) : Fun4 :=
  fun n y x c =>
    if ij.1 * sh ≤ y ∧ y < ij.1 * sh + kh ∧ ij.2 * sw ≤ x ∧ x < ij.2 * sw + kw then
      buf n y x c +
        dX n ij.1 ij.2 ((y - ij.1 * sh) * (kw * inC) + (x - ij.2 * sw) * inC + c)
    else
      buf n y x c

/-- Input-gradient computation of `Conv2D.backward` (layers.py:176-187):
scatter-accumulate `d_X_matrix` patches into a zero-initialized buffer
of the padded size, then cut off the padding
(`d_in[:, pad[0]:padded_h-pad[1], pad[2]:padded_w-pad[3], :]`).  The
first component is the numpy shape of the returned array; the second
is its contents.  (The parameter gradients `grads["w"], grads["b"]`
are separate side outputs no claim is about and are not modelled.) -/
def backward (cache : Cache) (grad : Fun4) : Shape4 × Fun4 :=
  let dIn := (positions cache.outH cache.outW).foldl
      (addPatch cache.kH cache.kW cache.inC cache.sH cache.sW (dXmat cache grad))
      (fun _ _ _ _ => 0)
  ((cache.inN, cache.padH - cache.pad.bottom - cache.pad.top,
    cache.padW - cache.pad.right - cache.pad.left, cache.inC),
   fun n y x c => dIn n (y + cache.pad.top) (x + cache.pad.left) c)

/-- `Conv2D.backward` as invoked by a caller, with the failure
behaviour of the source made explicit.  `self.cache` starts as `None`
(layers.py:96); calling backward first thing executes
`self.cache["in_n"]` (layers.py:163) and raises a `TypeError`
("'NoneType' object is not subscriptable").  With a cache in place, a
rank-4 gradient whose total size differs from the cached output's
raises a `ValueError` in `X_matrix.T @ grad.reshape((-1, out_c))`
(layers.py:172); with equal total size but a wrong channel count the
matmul `grad @ W_matrix.T` (line 177) raises `ValueError`; a too-small
spatial axis makes `d_X_matrix[:, i, j, :]` (line 182) raise
`IndexError`; a wrong batch size fails the patch reshape (line 182,
`ValueError`).  No code path raises anything like a `StateError` — the
source has no such class. -/
def backwardChecked (cache : Option Cache) (gN gH gW gC : Nat) (grad : Fun4) :
    Except PyError (Shape4 × Fun4) :=
  match cache with
  | none => Except.error PyError.typeError
  | some cc =>
      if gN * gH * gW * gC = cc.inN * cc.outH * cc.outW * cc.outC then
        if gC ≠ cc.outC then Except.error PyError.valueError
        else if gH < cc.outH ∨ gW < cc.outW then Except.error PyError.indexError
        else if gN ≠ cc.inN then Except.error PyError.valueError
        else Except.ok (backward cc grad)
      else Except.error PyError.valueError

end Conv2D

/-- The 1×3×3×1 example input of the specification: values 1..9 in
row-major order. -/
def exInput : Fun4 := fun _ y x _ => ((3 * y + x + 1 : Nat) : ℚ)

/-- The example 2×2×1×1 kernel weights [[1, 0], [0, 0]]. -/
def exW : Fun4 := fun a bb _ _ => if a = 0 ∧ bb = 0 then 1 else 0

/-- The example zero bias. -/
def exB : Nat → ℚ := fun _ => 0

/-- The cache of the example forward call (kernel [2,2,1,1], stride
(1,1), VALID padding, 1×3×3×1 input): used to exercise the
shape-mismatch path of `Conv2D.backwardChecked`. -/
def exCache : Conv2D.Cache :=
  (Conv2D.forwardFrom ⟨0, 0, 0, 0⟩ 2 2 1 1 1 1 exW exB 1 3 3 exInput).cache

/-- Result of `np.argmax` on a window flattened to m values read off a
function: the flat index of the first occurrence of the maximum
(the running best is replaced only on a strictly greater value, so
ties resolve to the lowest flat index). -/
def argmaxIdx (f : Nat → ℚ) (m : Nat) : Nat :=
  (List.range m).foldl (fun best t => if f t > f best then t else best) 0

/-- Result of `np.max` on a window flattened to m values read off a
function. -/
def maxVal (f : Nat → ℚ) (m : Nat) : ℚ :=
  (List.range m).foldl (fun acc t => max acc (f t)) (f 0)

/-- The zero-padded input of `MaxPool2D.forward`
(`np.pad(..., mode="constant")`, layers.py:252-253), as a function on
padded coordinates. -/
def zeroPad (inputs : Fun4) (inH inW padTop padLeft : Nat) : Fun4 :=
  fun n y x c =>
    if padTop ≤ y ∧ y < padTop + inH ∧ padLeft ≤ x ∧ x < padLeft + inW then
      inputs n (y - padTop) (x - padLeft) c
    else 0

namespace MaxPool2D

/-- Translation of `MaxPool2D._get_padding_1d` (layers.py:300-312).
In the source `max(pool_size - stride, 0)` is Python-int `max`; since
the arguments are non-negative, Nat subtraction `p - s` coincides with
it and we keep the source's `max` form literally. -/
def getPadding1d (inputSize poolSize stride : Nat) (mode : String) : Nat × Nat :=
  let nPad :=
    if mode = "SAME" then
      let r := inputSize % stride
      if r = 0 then max (poolSize - stride) 0 else max poolSize stride - r
    else 0
  let half := nPad / 2
  if nPad % 2 = 0 then (half, half) else (half, half + 1)

/-- Translation of `MaxPool2D._get_padding` (layers.py:293-298):
per-axis 1d padding, concatenated as (top, bottom, left, right). -/
def getPadding (inH inW poolH poolW strideH strideW : Nat) (mode : String) : Pad4 :=
  let hPad := getPadding1d inH poolH strideH mode
  let wPad := getPadding1d inW poolW strideW mode
  ⟨hPad.1, hPad.2, wPad.1, wPad.2⟩

/-- The cache dictionary written by `MaxPool2D.forward`
(layers.py:269-272): batch size, input image size, stride, the padded
sizes (the source stores them under the key "pad"), pool size, the
argmax positions and the output image size. -/
structure MPCache where
  inN : Nat
  inH : Nat
  inW : Nat
  inC : Nat
  sH : Nat
  sW : Nat
  padH : Nat
  padW : Nat
  poolH : Nat
  poolW : Nat
  maxPos : Nat → Nat → Nat → Nat → Nat
  outH : Nat
  outW : Nat

/-- Values of the pooling window starting at padded coordinate
(col, row), flattened row-major; `tw` is the (possibly truncated)
window width, which governs the flat-index decode exactly as
`pool.reshape((in_n, -1, in_c))` does (layers.py:260-261). -/
def windowVal (padded : Fun4) (col row tw : Nat) (n c t : Nat) : ℚ :=
  padded n (col + t / tw) (row + t % tw) c

/-- Padded start coordinate (col, row) of the window read by output
cell (i, j): the reshape of the stacked window list
(layers.py:264-267) makes cell (i, j) read list element
`i * out_w + j`, and the list was produced row-major over the loop's
own `ceil`-sized grid, so the element's window start decodes against
`ceilW`. -/
def windowIdx (outW ceilW sh sw : Nat) (i j : Nat) : Nat × Nat :=
  ((i * outW + j) / ceilW * sh, (i * outW + j) % ceilW * sw)

/-- Body of `MaxPool2D.forward` (layers.py:248-273) in the case where
the final reshape succeeds.  The loop visits window starts
`(col, row) ∈ range(0, pad_h, s_h) × range(0, pad_w, s_w)` row-major
(`ceilH × ceilW` iterations) and collects per-window max and argmax of
the — truncated at the borders — `pool_h × pool_w` window; the stack
of windows is then reshaped to `(in_n, out_h, out_w, in_c)`, so output
cell (i, j) reads the window with flat loop index `i * out_w + j`,
whose start decodes against the loop's own grid width `ceilW`. -/
def forwardFrom (pad : Pad4) (ph pw sh sw : Nat) (inN inH inW inC : Nat)
    (inputs : Fun4) : Fun4 × MPCache :=
  let padded := zeroPad inputs inH inW pad.top pad.left
  let padH := inH + pad.top + pad.bottom
  let padW := inW + pad.left + pad.right
  let outH := padH / sh
  let outW := padW / sw
  let ceilW := (padW + sw - 1) / sw
  let cr := fun (i j : Nat) => windowIdx outW ceilW sh sw i j
  let thOf := fun (i j : Nat) => min ph (padH - (cr i j).1)
  let twOf := fun (i j : Nat) => min pw (padW - (cr i j).2)
  (fun n i j c =>
     maxVal (windowVal padded (cr i j).1 (cr i j).2 (twOf i j) n c) (thOf i j * twOf i j),
   { inN := inN, inH := inH, inW := inW, inC := inC, sH := sh, sW := sw,
     padH := padH, padW := padW, poolH := ph, poolW := pw,
     maxPos := fun n i j c =>
       argmaxIdx (windowVal padded (cr i j).1 (cr i j).2 (twOf i j) n c)
         (thOf i j * twOf i j),
     outH := outH, outW := outW })

/-- Body of `MaxPool2D.forward` with the pad amounts computed by
`_get_padding` plugged in. -/
def forwardParts (ph pw sh sw : Nat) (mode : String) (inN inH inW inC : Nat)
    (inputs : Fun4) : Fun4 × MPCache :=
  forwardFrom (getPadding inH inW ph pw sh sw mode) ph pw sh sw inN inH inW inC inputs

/-- `MaxPool2D.forward` (layers.py:248-273).  The loop produces
`ceil(pad_h / s_h) · ceil(pad_w / s_w)` windows but the output is
reshaped to `(in_n, pad_h // s_h, pad_w // s_w, in_c)`
(layers.py:264-265); when the total sizes disagree numpy raises a
`ValueError` and no output or cache is produced, modelled as `none`. -/
def forward (ph pw sh sw : Nat) (mode : String) (inN inH inW inC : Nat)
    (inputs : Fun4) : Option (Fun4 × MPCache) :=
  let pad := getPadding inH inW ph pw sh sw mode
  let padH := inH + pad.top + pad.bottom
  let padW := inW + pad.left + pad.right
  let ceilH := (padH + sh - 1) / sh
  let ceilW := (padW + sw - 1) / sw
  if inN * (ceilH * ceilW) * inC = inN * (padH / sh * (padW / sw)) * inC then
    some (forwardParts ph pw sh sw mode inN inH inW inC inputs)
  else none

/-- One iteration of the backward loop (layers.py:282-290):
`d_in[:, col:col+pool_h, row:row+pool_w, :] = region` — an overwrite,
not an accumulation — where `region` carries the incoming gradient at
the argmax flat position of the window and 0 elsewhere. -/
def writeRegion (cache : MPCache) (grad : Fun4) (buf : Fun4) (ij : Nat × Nat) : Fun4 :=
  fun n y x c =>
    if ij.1 * cache.sH ≤ y ∧ y < ij.1 * cache.sH + cache.poolH ∧
       ij.2 * cache.sW ≤ x ∧ x < ij.2 * cache.sW + cache.poolW then
      if (y - ij.1 * cache.sH) * cache.poolW + (x - ij.2 * cache.sW)
          = cache.maxPos n ij.1 ij.2 c then
        grad n ij.1 ij.2 c
      else 0
    else buf n y x c

/-- Body of `MaxPool2D.backward` (layers.py:275-291) when every region
assignment fits: a zero buffer of the padded size
(`np.zeros(shape=(in_n, pad_h, pad_w, in_c))`, line 281) written
window by window.  The first component is the numpy shape of the
returned array — note it is the padded size: the source never crops
`d_in` back to the original input size. -/
def backwardParts (cache : MPCache) (grad : Fun4) : Shape4 × Fun4 :=
  let ceilH := (cache.padH + cache.sH - 1) / cache.sH
  let ceilW := (cache.padW + cache.sW - 1) / cache.sW
  ((cache.inN, cache.padH, cache.padW, cache.inC),
   (positions ceilH ceilW).foldl (writeRegion cache grad) (fun _ _ _ _ => 0))

/-- `MaxPool2D.backward` (layers.py:275-291).  When a window of the
full `pool_h × pool_w` size sticks out of the padded area (which
happens exactly when pool size exceeds stride on some axis), the region
assignment targets a smaller slice and numpy raises a `ValueError`,
modelled as `none`. -/
def backward (cache : MPCache) (grad : Fun4) : Option (Shape4 × Fun4) :=
  let ceilH := (cache.padH + cache.sH - 1) / cache.sH
  let ceilW := (cache.padW + cache.sW - 1) / cache.sW
  if ((List.range ceilH).all fun i => decide (i * cache.sH + cache.poolH ≤ cache.padH)) &&
     ((List.range ceilW).all fun j => decide (j * cache.sW + cache.poolW ≤ cache.padW)) then
    some (backwardParts cache grad)
  else none

/-- `MaxPool2D.backward` as invoked by a caller.  `self.cache` starts
as `None` (layers.py:246); calling backward before any forward executes
`self.cache["in_n"]` (layers.py:276) and raises a `TypeError`.  A
gradient of the wrong shape raises `IndexError`/`ValueError` from the
`grad[:, i, j, :]` reads or broadcasting (collapsed to `valueError`
here; the exercised paths below are the `None`-cache one and the
fitting one).  No code path raises anything like a `StateError`. -/
def backwardChecked (cache : Option MPCache) (gN gH gW gC : Nat) (grad : Fun4) :
    Except PyError (Shape4 × Fun4) :=
  match cache with
  | none => Except.error PyError.typeError
  | some cc =>
      if gN = cc.inN ∧ gH = cc.outH ∧ gW = cc.outW ∧ gC = cc.inC then
        match backward cc grad with
        | some r => Except.ok r
        | none => Except.error PyError.valueError
      else Except.error PyError.valueError

end MaxPool2D

/-- A 1×4×4×1 example input with distinct increasing values 0..15 in
row-major order (so every 2×2 pooling window has a unique maximum at
its bottom-right cell). -/
def exPoolInput : Fun4 := fun _ y x _ => ((4 * y + x : Nat) : ℚ)

/-- The cache of an example MaxPool2D forward call with pool (2,2),
stride (2,2), SAME padding on a 1×3×3×1 all-ones input: the padded
size is 4×4 (pad (0,1) on each axis), so backward returns a 1×4×4×1
array, not the 1×3×3×1 input shape. -/
def exPoolCache : MaxPool2D.MPCache :=
  (MaxPool2D.forwardParts 2 2 2 2 "SAME" 1 3 3 1 onesGrad).2

/-- Claim C2 theorem (code bug evidence): evaluation of
`Conv2D._get_padding` at kernel size (kh, kw) = (3, 5) in FULL mode.
The source returns (top, bottom, left, right) = (2, 4, 2, 4) — it mixes
the two axes (`[ks[0]-1, ks[1]-1, ks[0]-1, ks[1]-1]`) — and not the
specified symmetric (kh-1, kh-1, kw-1, kw-1) = (2, 2, 4, 4); in
particular top ≠ bottom for the odd kernel pair (3, 5), contradicting
the claimed odd-kernel symmetry.  For square kernels the two coincide. -/
theorem conv2d_full_padding_transposed :
    Conv2D.getPadding 3 5 "FULL" = some ⟨2, 4, 2, 4⟩ ∧
    Conv2D.getPadding 3 5 "FULL" ≠ some ⟨2, 2, 4, 4⟩ ∧
    Conv2D.getPadding 5 5 "FULL" = some ⟨4, 4, 4, 4⟩ := by
  refine ⟨rfl, ?_, rfl⟩
  decide

/-- Claim C9 theorem (code bug evidence): an unsupported padding mode
reaching `Conv2D._get_padding` makes the source print a warning and
return `None` (modelled `none`): no `InvalidPaddingMode` error — no
exception at all — is raised. -/
theorem conv2d_invalid_mode_returns_none :
    Conv2D.getPadding 3 3 "CIRCULAR" = none ∧
    Conv2D.getPadding 2 4 "reflect" = none := by
  exact ⟨rfl, rfl⟩

/-- Claim C6 theorem: `MaxPool2D._get_padding_1d` on an axis of size n
with pool p and stride s ≥ 1 computes, in SAME mode, the remainder
r = n mod s, the total pad `max(p - s, 0)` when r = 0 and
`max(p, s) - r` otherwise, split as (total/2, total/2) for even total
and (⌊total/2⌋, ⌊total/2⌋ + 1) for odd total with the extra pixel on
the trailing side; any other mode (in particular VALID) yields zero
padding, on both axes of the 2-d calculator. -/
theorem maxpool_padding_1d_formula (n p s m w q r : Nat) (hs : 1 ≤ s) :
    (MaxPool2D.getPadding1d n p s "SAME" =
      (let rem := n % s
       let total := if rem = 0 then max (p - s) 0 else max p s - rem
       if total % 2 = 0 then (total / 2, total / 2) else (total / 2, total / 2 + 1))) ∧
    MaxPool2D.getPadding1d n p s "VALID" = (0, 0) ∧
    MaxPool2D.getPadding m w q r s s "VALID" = ⟨0, 0, 0, 0⟩ := by
  refine ⟨rfl, ?_, ?_⟩
  · simp [MaxPool2D.getPadding1d]
  · simp [MaxPool2D.getPadding, MaxPool2D.getPadding1d]

/-- Witness for the C6 theorem at n = 5, p = 3, s = 2 (and a VALID
instance): the hypothesis 1 ≤ 2 is discharged concretely and the SAME
split evaluates to (1, 1). -/
theorem maxpool_padding_1d_formula_witness :
    (1 ≤ 2) ∧ MaxPool2D.getPadding1d 5 3 2 "SAME" =
      (let rem := 5 % 2
       let total := if rem = 0 then max (3 - 2) 0 else max 3 2 - rem
       if total % 2 = 0 then (total / 2, total / 2) else (total / 2, total / 2 + 1)) := by
  exact ⟨by decide, (maxpool_padding_1d_formula 5 3 2 1 1 1 1 (by decide)).1⟩

/-- Claim C4 theorem: for inputs large enough for the window to fit
(the source crashes otherwise), `Conv2D.forward` under VALID padding
has output spatial sizes `(in_dim - kernel_dim) / stride + 1` on each
axis, and under SAME padding with stride 1 the output spatial sizes
equal the input ones. -/
theorem conv2d_output_size (kh kw inC outC sh sw inN inH inW : Nat)
    (w : Fun4) (b : Nat → ℚ) (inputs : Fun4)
    (hkh : 1 ≤ kh) (hkw : 1 ≤ kw) (hH : kh ≤ inH) (hW : kw ≤ inW) :
    (Conv2D.forward "VALID" kh kw inC outC sh sw w b inN inH inW inputs).map
        (fun r => (r.cache.outH, r.cache.outW))
      = some ((inH - kh) / sh + 1, (inW - kw) / sw + 1) ∧
    (Conv2D.forward "SAME" kh kw inC outC 1 1 w b inN inH inW inputs).map
        (fun r => (r.cache.outH, r.cache.outW))
      = some (inH, inW) := by
  constructor
  · rfl
  · show some (((inH + (kh - 1) / 2 + ((kh - 1) / 2 + (if kh % 2 = 0 then 1 else 0)) - kh)
          / 1 + 1 : Nat),
        ((inW + (kw - 1) / 2 + ((kw - 1) / 2 + (if kw % 2 = 0 then 1 else 0)) - kw)
          / 1 + 1 : Nat)) = some (inH, inW)
    simp only [Option.some.injEq, Prod.mk.injEq, Nat.div_one]
    constructor
    · rcases Nat.mod_two_eq_zero_or_one kh with h | h <;> simp only [h] <;> norm_num <;> omega
    · rcases Nat.mod_two_eq_zero_or_one kw with h | h <;> simp only [h] <;> norm_num <;> omega

/-- Witness for the C4 theorem at kernel 3×3, stride 2, input 5×5:
VALID output sizes are (2, 2) and SAME stride-1 output sizes are
(5, 5). -/
theorem conv2d_output_size_witness :
    (1 ≤ 3 ∧ 3 ≤ 5) ∧
    (Conv2D.forward "VALID" 3 3 1 1 2 2 exW exB 1 5 5 exInput).map
        (fun r => (r.cache.outH, r.cache.outW)) = some ((5 - 3) / 2 + 1, (5 - 3) / 2 + 1) := by
  exact ⟨⟨by decide, by decide⟩,
    (conv2d_output_size 3 3 1 1 2 2 1 5 5 exW exB exInput
      (by decide) (by decide) (by decide) (by decide)).1⟩

/-- Claim C7 theorem: a Conv2D layer with kernel [2,2,1,1], weights
[[1,0],[0,0]], bias 0, VALID padding and stride (1,1), applied to the
1×3×3×1 input 1..9 (row-major), yields a 1×2×2×1 output equal to the
top-left value of each 2×2 window: [[1, 2], [4, 5]]. -/
theorem conv2d_example_topleft :
    (Conv2D.forward "VALID" 2 2 1 1 1 1 exW exB 1 3 3 exInput).map
        (fun r => ((r.cache.outH, r.cache.outW),
                   (r.out 0 0 0 0, r.out 0 0 1 0, r.out 0 1 0 0, r.out 0 1 1 0)))
      = some ((2, 2), (1, 2, 4, 5)) := by
  have h : Conv2D.forward "VALID" 2 2 1 1 1 1 exW exB 1 3 3 exInput
      = some (Conv2D.forwardFrom ⟨0, 0, 0, 0⟩ 2 2 1 1 1 1 exW exB 1 3 3 exInput) := rfl
  rw [h]
  norm_num [Conv2D.forwardFrom, Conv2D.patchEntry, Conv2D.kernelEntry, Conv2D.padEdge,
    Conv2D.edgeIdx, exInput, exW, exB, Finset.sum_range_succ, Finset.sum_range_zero]

/-- Claim C8 theorem (code bug evidence): `backward` invoked without a
preceding `forward` hits `self.cache["in_n"]` with `self.cache = None`
and raises a `TypeError` — for Conv2D and for MaxPool2D alike — and a
Conv2D backward call with a gradient whose size disagrees with the
cached output shape (here 1×5×5×1 against cached 1×2×2×1) raises a
`ValueError`; neither is the `StateError` the specification mandates
(the source has no such error at all). -/
theorem backward_without_forward_no_state_error :
    Conv2D.backwardChecked none 1 2 2 1 onesGrad = Except.error PyError.typeError ∧
    MaxPool2D.backwardChecked none 1 2 2 1 onesGrad = Except.error PyError.typeError ∧
    Conv2D.backwardChecked (some exCache) 1 5 5 1 onesGrad = Except.error PyError.valueError ∧
    PyError.typeError ≠ PyError.stateError ∧
    PyError.valueError ≠ PyError.stateError := by
  refine ⟨rfl, rfl, rfl, by decide, by decide⟩

/-- Claim C3 counterexample: after a MaxPool2D forward with pool (2,2),
stride (2,2), SAME padding on a 1×3×3×1 input (which succeeds: the
padded size 4×4 is stride-divisible), backward returns an array of the
padded shape 1×4×4×1, not the original input shape 1×3×3×1: the source
never crops the gradient buffer. -/
theorem maxpool_backward_shape_not_cropped :
    (MaxPool2D.forward 2 2 2 2 "SAME" 1 3 3 1 onesGrad).map
        (fun r => (r.2.inH, r.2.inW, r.2.padH, r.2.padW)) = some (3, 3, 4, 4) ∧
    (MaxPool2D.backward exPoolCache onesGrad).map Prod.fst = some (1, 4, 4, 1) ∧
    ((1, 4, 4, 1) : Shape4) ≠ (1, 3, 3, 1) := by
  refine ⟨rfl, rfl, by decide⟩

theorem list_sum_map_range (f : Nat → ℚ) (n : Nat) :
    ((List.range n).map f).sum = ∑ k ∈ Finset.range n, f k := by
  induction n with
  | zero => simp
  | succ n ih =>
      rw [List.range_succ, List.map_append, List.sum_append, Finset.sum_range_succ, ih]
      simp

theorem sum_range_split (f : Nat → ℚ) (a b : Nat) :
    ∑ k ∈ Finset.range (a + b), f k
      = (∑ k ∈ Finset.range a, f k) + ∑ k ∈ Finset.range b, f (a + k) := by
  induction b with
  | zero => simp
  | succ b ih =>
      rw [show a + (b + 1) = (a + b) + 1 from rfl, Finset.sum_range_succ, ih,
        Finset.sum_range_succ, add_assoc]

theorem sum_range_mul_divmod (g : Nat → Nat → ℚ) (m w : Nat) :
    ∑ k ∈ Finset.range (m * w), g (k / w) (k % w)
      = ∑ i ∈ Finset.range m, ∑ j ∈ Finset.range w, g i j := by
  induction m with
  | zero => simp
  | succ m ih =>
      rw [show (m + 1) * w = m * w + w from by ring, sum_range_split, ih,
        Finset.sum_range_succ]
      congr 1
      refine Finset.sum_congr rfl (fun j hj => ?_)
      have hjw : j < w := Finset.mem_range.mp hj
      have hw : 0 < w := by omega
      have h1 : (m * w + j) / w = m := by
        rw [Nat.add_comm, Nat.mul_comm, Nat.add_mul_div_left _ _ hw,
          Nat.div_eq_of_lt hjw, Nat.zero_add]
      have h2 : (m * w + j) % w = j := by
        rw [Nat.add_comm, Nat.mul_comm, Nat.add_mul_mod_self_left, Nat.mod_eq_of_lt hjw]
      rw [h1, h2]

theorem sum_map_positions (F : Nat × Nat → ℚ) (m w : Nat) :
    ((positions m w).map F).sum = ∑ i ∈ Finset.range m, ∑ j ∈ Finset.range w, F (i, j) := by
  unfold positions
  rw [List.map_map]
  have h1 : ((List.range (m * w)).map (F ∘ fun k => (k / w, k % w))).sum
      = ∑ k ∈ Finset.range (m * w), F (k / w, k % w) :=
    list_sum_map_range (fun k => F (k / w, k % w)) (m * w)
  rw [h1]
  exact sum_range_mul_divmod (fun i j => F (i, j)) m w

theorem mem_positions {m w : Nat} {ij : Nat × Nat} :
    ij ∈ positions m w ↔ ij.1 < m ∧ ij.2 < w := by
  unfold positions
  rw [List.mem_map]
  constructor
  · rintro ⟨k, hk, rfl⟩
    rw [List.mem_range] at hk
    have hw : 0 < w := by
      rcases Nat.eq_zero_or_pos w with h | h
      · subst h; omega
      · exact h
    exact ⟨(Nat.div_lt_iff_lt_mul hw).mpr hk, Nat.mod_lt _ hw⟩
  · rintro ⟨h1, h2⟩
    have hw : 0 < w := by omega
    refine ⟨ij.1 * w + ij.2, ?_, ?_⟩
    · rw [List.mem_range]
      calc ij.1 * w + ij.2 < ij.1 * w + w := by omega
        _ = (ij.1 + 1) * w := by ring
        _ ≤ m * w := Nat.mul_le_mul (by omega) (Nat.le_refl w)
    · have hd : (ij.1 * w + ij.2) / w = ij.1 := by
        rw [Nat.add_comm, Nat.mul_comm, Nat.add_mul_div_left _ _ hw,
          Nat.div_eq_of_lt h2, Nat.zero_add]
      have hm2 : (ij.1 * w + ij.2) % w = ij.2 := by
        rw [Nat.add_comm, Nat.mul_comm, Nat.add_mul_mod_self_left, Nat.mod_eq_of_lt h2]
      rw [hd, hm2]

theorem foldl_addPatch_apply (kh kw inC sh sw : Nat) (dX : Nat → Nat → Nat → Nat → ℚ)
    (l : List (Nat × Nat)) (buf : Fun4) (n y x c : Nat) :
    l.foldl (Conv2D.addPatch kh kw inC sh sw dX) buf n y x c
      = buf n y x c
        + (l.map (fun ij =>
            if ij.1 * sh ≤ y ∧ y < ij.1 * sh + kh ∧ ij.2 * sw ≤ x ∧ x < ij.2 * sw + kw then
              dX n ij.1 ij.2 ((y - ij.1 * sh) * (kw * inC) + (x - ij.2 * sw) * inC + c)
            else 0)).sum := by
  induction l generalizing buf with
  | nil => simp
  | cons a l ih =>
      rw [List.foldl_cons, ih, List.map_cons, List.sum_cons]
      simp only [Conv2D.addPatch]
      split_ifs
      · ring
      · ring

theorem ceil_div_of_dvd {m s : Nat} (hs : 1 ≤ s) (h : m % s = 0) :
    (m + s - 1) / s = m / s := by
  have hdm := Nat.div_add_mod m s
  have h3 : m + s - 1 = (s - 1) + s * (m / s) := by omega
  rw [h3, Nat.add_mul_div_left _ _ (show 0 < s by omega),
    Nat.div_eq_of_lt (show s - 1 < s by omega), Nat.zero_add]

theorem ceil_div_of_not_dvd {m s : Nat} (hs : 1 ≤ s) (h : m % s ≠ 0) :
    (m + s - 1) / s = m / s + 1 := by
  have hdm := Nat.div_add_mod m s
  have hlt : m % s < s := Nat.mod_lt _ (by omega)
  have h4 : s * (m / s + 1) = s * (m / s) + s := by ring
  have h3 : m + s - 1 = (m % s - 1) + s * (m / s + 1) := by omega
  rw [h3, Nat.add_mul_div_left _ _ (show 0 < s by omega),
    Nat.div_eq_of_lt (show m % s - 1 < s by omega), Nat.zero_add]

theorem ceil_mul_ne_floor_mul {a b sa sb : Nat} (hsa : 1 ≤ sa) (hsb : 1 ≤ sb)
    (ha : 1 ≤ a) (hb : 1 ≤ b) (hnd : ¬(a % sa = 0 ∧ b % sb = 0)) :
    ((a + sa - 1) / sa) * ((b + sb - 1) / sb) ≠ a / sa * (b / sb) := by
  have hB1 : 1 ≤ (b + sb - 1) / sb := (Nat.one_le_div_iff (by omega)).mpr (by omega)
  have hA1 : 1 ≤ (a + sa - 1) / sa := (Nat.one_le_div_iff (by omega)).mpr (by omega)
  have hAge : a / sa ≤ (a + sa - 1) / sa := Nat.div_le_div_right (by omega)
  have hBge : b / sb ≤ (b + sb - 1) / sb := Nat.div_le_div_right (by omega)
  rcases not_and_or.mp hnd with hna | hnb
  · rw [ceil_div_of_not_dvd hsa hna]
    intro heq
    have h1 : (a / sa + 1) * ((b + sb - 1) / sb)
        = a / sa * ((b + sb - 1) / sb) + (b + sb - 1) / sb := by ring
    have h2 : a / sa * (b / sb) ≤ a / sa * ((b + sb - 1) / sb) :=
      Nat.mul_le_mul (Nat.le_refl _) hBge
    omega
  · rw [ceil_div_of_not_dvd hsb hnb]
    intro heq
    have h1 : ((a + sa - 1) / sa) * (b / sb + 1)
        = (a + sa - 1) / sa * (b / sb) + (a + sa - 1) / sa := by ring
    have h2 : a / sa * (b / sb) ≤ (a + sa - 1) / sa * (b / sb) :=
      Nat.mul_le_mul hAge (Nat.le_refl _)
    omega

theorem slab_iff {s p i y : Nat} (hs : 1 ≤ s) (hp : p ≤ s) :
    (i * s ≤ y ∧ y < i * s + p) ↔ (i = y / s ∧ y % s < p) := by
  have hdm := Nat.div_add_mod y s
  have hms : y % s < s := Nat.mod_lt _ (by omega)
  constructor
  · rintro ⟨h1, h2⟩
    have hi : y / s = i := by
      have hup : y < (i + 1) * s := by
        have he : (i + 1) * s = i * s + s := by ring
        omega
      have h3 : i ≤ y / s := by
        by_contra hc
        push_neg at hc
        have h4 : (y / s + 1) * s ≤ i * s := Nat.mul_le_mul (by omega) (Nat.le_refl s)
        have h5 : (y / s + 1) * s = s * (y / s) + s := by ring
        omega
      have h7 : y / s < i + 1 := by
        by_contra hc
        push_neg at hc
        have h8 : (i + 1) * s ≤ y / s * s := Nat.mul_le_mul hc (Nat.le_refl s)
        have h9 : y / s * s = s * (y / s) := by ring
        have he : (i + 1) * s = i * s + s := by ring
        omega
      omega
    refine ⟨hi.symm, ?_⟩
    rw [hi] at hdm
    have he : s * i = i * s := by ring
    omega
  · rintro ⟨h1, h2⟩
    subst h1
    have h3 : y / s * s = s * (y / s) := by ring
    omega

theorem argmaxIdx_succ (f : Nat → ℚ) (m : Nat) :
    argmaxIdx f (m + 1) = if f m > f (argmaxIdx f m) then m else argmaxIdx f m := by
  unfold argmaxIdx
  rw [List.range_succ, List.foldl_append, List.foldl_cons, List.foldl_nil]

theorem argmaxIdx_spec (f : Nat → ℚ) (m : Nat) (hm : 1 ≤ m) :
    argmaxIdx f m < m ∧
    (∀ t, t < m → f t ≤ f (argmaxIdx f m)) ∧
    (∀ t, t < argmaxIdx f m → f t < f (argmaxIdx f m)) := by
  induction m with
  | zero => omega
  | succ m ih =>
      have h0 : argmaxIdx f 0 = 0 := rfl
      rw [argmaxIdx_succ]
      by_cases hgt : f m > f (argmaxIdx f m)
      · rw [if_pos hgt]
        refine ⟨by omega, ?_, ?_⟩
        · intro t ht
          rcases Nat.lt_succ_iff_lt_or_eq.mp ht with h | h
          · rcases Nat.eq_zero_or_pos m with hm0 | hm1
            · omega
            · exact le_trans ((ih hm1).2.1 t h) (le_of_lt hgt)
          · subst h; exact le_refl _
        · intro t ht
          rcases Nat.eq_zero_or_pos m with hm0 | hm1
          · omega
          · exact lt_of_le_of_lt ((ih hm1).2.1 t ht) hgt
      · rw [if_neg hgt]
        rcases Nat.eq_zero_or_pos m with hm0 | hm1
        · subst hm0
          rw [h0]
          refine ⟨by omega, ?_, by omega⟩
          intro t ht
          have ht0 : t = 0 := by omega
          subst ht0
          exact le_refl _
        · obtain ⟨ih1, ih2, ih3⟩ := ih hm1
          refine ⟨by omega, ?_, ih3⟩
          intro t ht
          rcases Nat.lt_succ_iff_lt_or_eq.mp ht with h | h
          · exact ih2 t h
          · subst h; exact not_lt.mp hgt

theorem maxpool_forward_eq (ph pw sh sw : Nat) (mode : String)
    (inN inH inW inC : Nat) (inputs : Fun4) (pad : Pad4)
    (hpad : MaxPool2D.getPadding inH inW ph pw sh sw mode = pad)
    (hsh : 1 ≤ sh) (hsw : 1 ≤ sw)
    (hdh : (inH + pad.top + pad.bottom) % sh = 0)
    (hdw : (inW + pad.left + pad.right) % sw = 0) :
    MaxPool2D.forward ph pw sh sw mode inN inH inW inC inputs
      = some (MaxPool2D.forwardFrom pad ph pw sh sw inN inH inW inC inputs) := by
  simp only [MaxPool2D.forward, MaxPool2D.forwardParts]
  rw [hpad, ceil_div_of_dvd hsh hdh, ceil_div_of_dvd hsw hdw, if_pos rfl]

theorem maxpool_backward_total (cache : MaxPool2D.MPCache) (grad : Fun4)
    (hsh : 1 ≤ cache.sH) (hsw : 1 ≤ cache.sW)
    (hph : cache.poolH ≤ cache.sH) (hpw : cache.poolW ≤ cache.sW)
    (hdh : cache.padH % cache.sH = 0) (hdw : cache.padW % cache.sW = 0) :
    MaxPool2D.backward cache grad = some (MaxPool2D.backwardParts cache grad) := by
  have key : ∀ s p m : Nat, 1 ≤ s → p ≤ s → m % s = 0 →
      ∀ i, i < (m + s - 1) / s → i * s + p ≤ m := by
    intro s p m hs hp hm i hi
    rw [ceil_div_of_dvd hs hm] at hi
    have h1 : (i + 1) * s ≤ m / s * s := Nat.mul_le_mul (by omega) (Nat.le_refl s)
    have h2 : m / s * s = m := Nat.div_mul_cancel (Nat.dvd_of_mod_eq_zero hm)
    have h3 : (i + 1) * s = i * s + s := by ring
    omega
  simp only [MaxPool2D.backward]
  rw [if_pos]
  rw [Bool.and_eq_true]
  refine ⟨?_, ?_⟩ <;> rw [List.all_eq_true] <;> intro i hi <;>
    rw [List.mem_range] at hi <;> rw [decide_eq_true_eq]
  · exact key _ _ _ hsh hph hdh i hi
  · exact key _ _ _ hsw hpw hdw i hi

theorem windowIdx_eq {outW : Nat} (ceilW sh sw i j : Nat) (hj : j < outW)
    (hc : ceilW = outW) :
    MaxPool2D.windowIdx outW ceilW sh sw i j = (i * sh, j * sw) := by
  subst hc
  unfold MaxPool2D.windowIdx
  have hw : 0 < ceilW := by omega
  have h1 : (i * ceilW + j) / ceilW = i := by
    rw [Nat.add_comm, Nat.mul_comm, Nat.add_mul_div_left _ _ hw,
      Nat.div_eq_of_lt hj, Nat.zero_add]
  have h2 : (i * ceilW + j) % ceilW = j := by
    rw [Nat.add_comm, Nat.mul_comm, Nat.add_mul_mod_self_left, Nat.mod_eq_of_lt hj]
  rw [h1, h2]

theorem maxpool_forwardFrom_maxPos (pad : Pad4) (ph pw sh sw inN inH inW inC : Nat)
    (inputs : Fun4) (i j : Nat)
    (hsh : 1 ≤ sh) (hsw : 1 ≤ sw) (hph : ph ≤ sh) (hpw : pw ≤ sw)
    (hdh : (inH + pad.top + pad.bottom) % sh = 0)
    (hdw : (inW + pad.left + pad.right) % sw = 0)
    (hi : i < (inH + pad.top + pad.bottom) / sh)
    (hj : j < (inW + pad.left + pad.right) / sw) :
    ∀ n c, (MaxPool2D.forwardFrom pad ph pw sh sw inN inH inW inC inputs).2.maxPos n i j c
      = argmaxIdx (fun t => zeroPad inputs inH inW pad.top pad.left n
          (i * sh + t / pw) (j * sw + t % pw) c) (ph * pw) := by
  intro n c
  have hceil : (inW + pad.left + pad.right + sw - 1) / sw = (inW + pad.left + pad.right) / sw :=
    ceil_div_of_dvd hsw hdw
  have hfith : i * sh + sh ≤ inH + pad.top + pad.bottom := by
    have h1 : (i + 1) * sh ≤ (inH + pad.top + pad.bottom) / sh * sh :=
      Nat.mul_le_mul (by omega) (Nat.le_refl sh)
    have h2 : (inH + pad.top + pad.bottom) / sh * sh = inH + pad.top + pad.bottom :=
      Nat.div_mul_cancel (Nat.dvd_of_mod_eq_zero hdh)
    have h3 : (i + 1) * sh = i * sh + sh := by ring
    omega
  have hfitw : j * sw + sw ≤ inW + pad.left + pad.right := by
    have h1 : (j + 1) * sw ≤ (inW + pad.left + pad.right) / sw * sw :=
      Nat.mul_le_mul (by omega) (Nat.le_refl sw)
    have h2 : (inW + pad.left + pad.right) / sw * sw = inW + pad.left + pad.right :=
      Nat.div_mul_cancel (Nat.dvd_of_mod_eq_zero hdw)
    have h3 : (j + 1) * sw = j * sw + sw := by ring
    omega
  simp only [MaxPool2D.forwardFrom,
    windowIdx_eq ((inW + pad.left + pad.right + sw - 1) / sw) sh sw i j hj hceil]
  have hth : min ph (inH + pad.top + pad.bottom - i * sh) = ph :=
    min_eq_left (by omega)
  have htw : min pw (inW + pad.left + pad.right - j * sw) = pw :=
    min_eq_left (by omega)
  rw [hth, htw]
  rfl

theorem foldl_writeRegion_apply (cache : MaxPool2D.MPCache) (grad : Fun4)
    (hsh : 1 ≤ cache.sH) (hsw : 1 ≤ cache.sW)
    (hph : cache.poolH ≤ cache.sH) (hpw : cache.poolW ≤ cache.sW)
    (l : List (Nat × Nat)) (buf : Fun4) (n y x c : Nat) :
    l.foldl (MaxPool2D.writeRegion cache grad) buf n y x c
      = if (y / cache.sH, x / cache.sW) ∈ l ∧ y % cache.sH < cache.poolH ∧
           x % cache.sW < cache.poolW then
          (if (y % cache.sH) * cache.poolW + x % cache.sW
              = cache.maxPos n (y / cache.sH) (x / cache.sW) c then
            grad n (y / cache.sH) (x / cache.sW) c
          else 0)
        else buf n y x c := by
  induction l generalizing buf with
  | nil => simp
  | cons a l ih =>
      rw [List.foldl_cons, ih]
      by_cases hcov : a.1 * cache.sH ≤ y ∧ y < a.1 * cache.sH + cache.poolH ∧
          a.2 * cache.sW ≤ x ∧ x < a.2 * cache.sW + cache.poolW
      · have h1 : a.1 = y / cache.sH ∧ y % cache.sH < cache.poolH :=
          (slab_iff hsh hph).mp ⟨hcov.1, hcov.2.1⟩
        have h2 : a.2 = x / cache.sW ∧ x % cache.sW < cache.poolW :=
          (slab_iff hsw hpw).mp ⟨hcov.2.2.1, hcov.2.2.2⟩
        have hmem : (y / cache.sH, x / cache.sW) ∈ a :: l := by
          rw [← h1.1, ← h2.1]
          exact List.mem_cons_self a l
        conv_rhs => rw [if_pos (⟨hmem, h1.2, h2.2⟩ :
          (y / cache.sH, x / cache.sW) ∈ a :: l ∧ y % cache.sH < cache.poolH ∧
            x % cache.sW < cache.poolW)]
        by_cases hmem2 : (y / cache.sH, x / cache.sW) ∈ l ∧ y % cache.sH < cache.poolH ∧
            x % cache.sW < cache.poolW
        · rw [if_pos hmem2]
        · rw [if_neg hmem2]
          simp only [MaxPool2D.writeRegion]
          rw [if_pos hcov]
          have hdmy := Nat.div_add_mod y cache.sH
          have hdmx := Nat.div_add_mod x cache.sW
          have e1 : y - a.1 * cache.sH = y % cache.sH := by
            rw [h1.1]
            have hc : y / cache.sH * cache.sH = cache.sH * (y / cache.sH) := by ring
            omega
          have e2 : x - a.2 * cache.sW = x % cache.sW := by
            rw [h2.1]
            have hc : x / cache.sW * cache.sW = cache.sW * (x / cache.sW) := by ring
            omega
          rw [e1, e2, h1.1, h2.1]
      · have hbuf : MaxPool2D.writeRegion cache grad buf a n y x c = buf n y x c := by
          simp only [MaxPool2D.writeRegion]
          rw [if_neg hcov]
        rw [hbuf]
        by_cases hmem2 : (y / cache.sH, x / cache.sW) ∈ l ∧ y % cache.sH < cache.poolH ∧
            x % cache.sW < cache.poolW
        · rw [if_pos hmem2]
          conv_rhs => rw [if_pos (⟨List.mem_cons_of_mem a hmem2.1, hmem2.2⟩ :
            (y / cache.sH, x / cache.sW) ∈ a :: l ∧ y % cache.sH < cache.poolH ∧
              x % cache.sW < cache.poolW)]
        · have hcon3 : ¬((y / cache.sH, x / cache.sW) ∈ a :: l ∧
              y % cache.sH < cache.poolH ∧ x % cache.sW < cache.poolW) := by
            intro hcon
            rcases List.mem_cons.mp hcon.1 with he | hl
            · apply hcov
              have ha1 : a.1 = y / cache.sH := by rw [← he]
              have ha2 : a.2 = x / cache.sW := by rw [← he]
              have hy2 := (slab_iff hsh hph).mpr ⟨ha1, hcon.2.1⟩
              have hx2 := (slab_iff hsw hpw).mpr ⟨ha2, hcon.2.2⟩
              exact ⟨hy2.1, hy2.2, hx2.1, hx2.2⟩
            · exact hmem2 ⟨hl, hcon.2⟩
          rw [if_neg hmem2]
          conv_rhs => rw [if_neg hcon3]

/-- Claim C1 theorem: after a `Conv2D.forward` call (first conjunct:
forward with a supported mode produces exactly the cache the backward
pass reads), `backward` returns the input gradient as the adjoint of
the forward patch gather: the returned array has the original unpadded
shape (N, H, W, C) (second conjunct), and its entry at (n, y, x, c) is
the accumulated — summed over all output positions whose receptive
field contains the padded coordinate (y + pad.top, x + pad.left) — value
of the corresponding `grad @ W_matrix.T` slice, reshaped to
(N, kH, kW, C) and read at kernel offset (y + pad.top − i·sh,
x + pad.left − j·sw, c); the crop by the cached pad amounts appears as
the (y + pad.top, x + pad.left) shift (third conjunct). -/
theorem conv2d_backward_adjoint (mode : String) (pad : Pad4)
    (kh kw inC outC sh sw inN inH inW : Nat) (w : Fun4) (b : Nat → ℚ)
    (inputs grad : Fun4) (n y x c : Nat)
    (hmode : Conv2D.getPadding kh kw mode = some pad)
    (hkh : kh ≤ inH + pad.top + pad.bottom) (hkw : kw ≤ inW + pad.left + pad.right)
    (hy : y < inH) (hx : x < inW) :
    Conv2D.forward mode kh kw inC outC sh sw w b inN inH inW inputs
        = some (Conv2D.forwardFrom pad kh kw inC outC sh sw w b inN inH inW inputs) ∧
    (Conv2D.backward
        (Conv2D.forwardFrom pad kh kw inC outC sh sw w b inN inH inW inputs).cache grad).1
      = (inN, inH, inW, inC) ∧
    (Conv2D.backward
        (Conv2D.forwardFrom pad kh kw inC outC sh sw w b inN inH inW inputs).cache grad).2
        n y x c
      = ∑ i ∈ Finset.range ((inH + pad.top + pad.bottom - kh) / sh + 1),
          ∑ j ∈ Finset.range ((inW + pad.left + pad.right - kw) / sw + 1),
            (if i * sh ≤ y + pad.top ∧ y + pad.top < i * sh + kh ∧
                j * sw ≤ x + pad.left ∧ x + pad.left < j * sw + kw then
              ∑ o ∈ Finset.range outC,
                grad n i j o *
                  Conv2D.kernelEntry w kw inC
                    ((y + pad.top - i * sh) * (kw * inC) + (x + pad.left - j * sw) * inC + c) o
            else 0) := by
  refine ⟨?_, ?_, ?_⟩
  · unfold Conv2D.forward
    rw [hmode]
    rfl
  · show (inN, inH + pad.top + pad.bottom - pad.bottom - pad.top,
        inW + pad.left + pad.right - pad.right - pad.left, inC) = (inN, inH, inW, inC)
    have e1 : inH + pad.top + pad.bottom - pad.bottom - pad.top = inH := by omega
    have e2 : inW + pad.left + pad.right - pad.right - pad.left = inW := by omega
    rw [e1, e2]
  · have hb : (Conv2D.backward
          (Conv2D.forwardFrom pad kh kw inC outC sh sw w b inN inH inW inputs).cache grad).2
          n y x c
        = (positions ((inH + pad.top + pad.bottom - kh) / sh + 1)
              ((inW + pad.left + pad.right - kw) / sw + 1)).foldl
            (Conv2D.addPatch kh kw inC sh sw
              (Conv2D.dXmat
                (Conv2D.forwardFrom pad kh kw inC outC sh sw w b inN inH inW inputs).cache grad))
            (fun _ _ _ _ => 0) n (y + pad.top) (x + pad.left) c := rfl
    rw [hb, foldl_addPatch_apply, sum_map_positions]
    simp only [zero_add]
    rfl

/-- Witness for the C1 theorem: a concrete 2×2 VALID stride-1 layer on
the 1×3×3×1 example input with an all-ones gradient, at output cell
(0, 0, 0, 0). -/
theorem conv2d_backward_adjoint_witness :
    Conv2D.getPadding 2 2 "VALID" = some ⟨0, 0, 0, 0⟩ ∧
    (Conv2D.backward
        (Conv2D.forwardFrom ⟨0, 0, 0, 0⟩ 2 2 1 1 1 1 exW exB 1 3 3 exInput).cache onesGrad).2
        0 0 0 0
      = ∑ i ∈ Finset.range ((3 + 0 + 0 - 2) / 1 + 1),
          ∑ j ∈ Finset.range ((3 + 0 + 0 - 2) / 1 + 1),
            (if i * 1 ≤ 0 + 0 ∧ 0 + 0 < i * 1 + 2 ∧ j * 1 ≤ 0 + 0 ∧ 0 + 0 < j * 1 + 2 then
              ∑ o ∈ Finset.range 1,
                onesGrad 0 i j o *
                  Conv2D.kernelEntry exW 2 1
                    ((0 + 0 - i * 1) * (2 * 1) + (0 + 0 - j * 1) * 1 + 0) o
            else 0) :=
  ⟨rfl,
    (conv2d_backward_adjoint "VALID" ⟨0, 0, 0, 0⟩ 2 2 1 1 1 1 1 3 3 exW exB exInput onesGrad
      0 0 0 0 rfl (by decide) (by decide) (by decide) (by decide)).2.2⟩

/-- Claim C10 theorem: `MaxPool2D.forward` (on a non-degenerate input,
batch, channel and stride at least 1) succeeds exactly when each padded
spatial size is divisible by the corresponding stride — otherwise the
output reshape fails and no output is produced — and on success the
output spatial sizes are `padded_h / stride_h` and `padded_w / stride_w`,
independent of the pool size. -/
theorem maxpool_forward_success_iff (ph pw sh sw : Nat) (mode : String)
    (inN inH inW inC : Nat) (inputs : Fun4) (pad : Pad4)
    (hpad : MaxPool2D.getPadding inH inW ph pw sh sw mode = pad)
    (hsh : 1 ≤ sh) (hsw : 1 ≤ sw) (hN : 1 ≤ inN) (hC : 1 ≤ inC)
    (hH : 1 ≤ inH) (hW : 1 ≤ inW) :
    (MaxPool2D.forward ph pw sh sw mode inN inH inW inC inputs).map
        (fun r => (r.2.outH, r.2.outW))
      = if (inH + pad.top + pad.bottom) % sh = 0 ∧ (inW + pad.left + pad.right) % sw = 0 then
          some ((inH + pad.top + pad.bottom) / sh, (inW + pad.left + pad.right) / sw)
        else none := by
  by_cases hd : (inH + pad.top + pad.bottom) % sh = 0 ∧ (inW + pad.left + pad.right) % sw = 0
  · rw [if_pos hd,
      maxpool_forward_eq ph pw sh sw mode inN inH inW inC inputs pad hpad hsh hsw hd.1 hd.2,
      Option.map_some']
    rfl
  · rw [if_neg hd]
    simp only [MaxPool2D.forward, MaxPool2D.forwardParts]
    rw [hpad]
    have hne : ¬(inN * ((inH + pad.top + pad.bottom + sh - 1) / sh *
          ((inW + pad.left + pad.right + sw - 1) / sw)) * inC
        = inN * ((inH + pad.top + pad.bottom) / sh * ((inW + pad.left + pad.right) / sw)) * inC) := by
      intro heq
      have h1 := Nat.eq_of_mul_eq_mul_right (show 0 < inC by omega) heq
      have h2 := Nat.eq_of_mul_eq_mul_left (show 0 < inN by omega) h1
      exact ceil_mul_ne_floor_mul hsh hsw (by omega) (by omega) hd h2
    rw [if_neg hne]
    rfl

/-- Witness for the C10 theorem: pool (2,2), stride (2,2), VALID mode
on a 1×4×4×1 input; both padded sizes (4, 4) are divisible by the
strides, so forward succeeds with output spatial size (2, 2). -/
theorem maxpool_forward_success_iff_witness :
    MaxPool2D.getPadding 4 4 2 2 2 2 "VALID" = (⟨0, 0, 0, 0⟩ : Pad4) ∧
    (MaxPool2D.forward 2 2 2 2 "VALID" 1 4 4 1 exPoolInput).map
        (fun r => (r.2.outH, r.2.outW))
      = if (4 + 0 + 0) % 2 = 0 ∧ (4 + 0 + 0) % 2 = 0 then
          some ((4 + 0 + 0) / 2, (4 + 0 + 0) / 2)
        else none :=
  ⟨rfl,
    maxpool_forward_success_iff 2 2 2 2 "VALID" 1 4 4 1 exPoolInput ⟨0, 0, 0, 0⟩ rfl
      (by decide) (by decide) (by decide) (by decide) (by decide) (by decide)⟩

/-- Claim C3 amended theorem: after a successful MaxPool2D forward (in
a configuration where backward does not crash: pool size at most the
stride and stride-divisible padded sizes), backward returns an array of
the cached padded spatial size `(N, pad_h, pad_w, C)` — no cropping is
performed — which equals the original input shape `(N, H, W, C)`
exactly when every pad amount is zero; VALID mode always computes zero
pad amounts. -/
theorem maxpool_backward_padded_shape (ph pw sh sw : Nat) (mode : String)
    (inN inH inW inC : Nat) (inputs grad : Fun4) (pad : Pad4)
    (hpad : MaxPool2D.getPadding inH inW ph pw sh sw mode = pad)
    (hsh : 1 ≤ sh) (hsw : 1 ≤ sw) (hph : ph ≤ sh) (hpw : pw ≤ sw)
    (hdh : (inH + pad.top + pad.bottom) % sh = 0)
    (hdw : (inW + pad.left + pad.right) % sw = 0) :
    MaxPool2D.forward ph pw sh sw mode inN inH inW inC inputs
        = some (MaxPool2D.forwardFrom pad ph pw sh sw inN inH inW inC inputs) ∧
    (MaxPool2D.backward
        (MaxPool2D.forwardFrom pad ph pw sh sw inN inH inW inC inputs).2 grad).map Prod.fst
      = some (inN, inH + pad.top + pad.bottom, inW + pad.left + pad.right, inC) ∧
    (pad.top = 0 → pad.bottom = 0 → pad.left = 0 → pad.right = 0 →
      (MaxPool2D.backward
          (MaxPool2D.forwardFrom pad ph pw sh sw inN inH inW inC inputs).2 grad).map Prod.fst
        = some (inN, inH, inW, inC)) ∧
    (mode = "VALID" → pad = ⟨0, 0, 0, 0⟩) := by
  have htot := maxpool_backward_total
    (MaxPool2D.forwardFrom pad ph pw sh sw inN inH inW inC inputs).2 grad
    hsh hsw hph hpw hdh hdw
  refine ⟨maxpool_forward_eq ph pw sh sw mode inN inH inW inC inputs pad hpad hsh hsw hdh hdw,
    ?_, ?_, ?_⟩
  · rw [htot, Option.map_some']
    rfl
  · intro h1 h2 h3 h4
    rw [htot, Option.map_some']
    show some (inN, inH + pad.top + pad.bottom, inW + pad.left + pad.right, inC)
      = some (inN, inH, inW, inC)
    rw [h1, h2, h3, h4]
    rfl
  · intro hm
    subst hm
    rw [← hpad]
    simp [MaxPool2D.getPadding, MaxPool2D.getPadding1d]

/-- Witness for the amended C3 theorem: pool (2,2), stride (2,2),
VALID mode on a 1×4×4×1 input; the pad amounts are all zero and
backward returns the 1×4×4×1 shape, which here equals the input
shape. -/
theorem maxpool_backward_padded_shape_witness :
    MaxPool2D.getPadding 4 4 2 2 2 2 "VALID" = (⟨0, 0, 0, 0⟩ : Pad4) ∧
    (MaxPool2D.backward
        (MaxPool2D.forwardFrom ⟨0, 0, 0, 0⟩ 2 2 2 2 1 4 4 1 exPoolInput).2 onesGrad).map Prod.fst
      = some (1, 4 + 0 + 0, 4 + 0 + 0, 1) :=
  ⟨rfl,
    (maxpool_backward_padded_shape 2 2 2 2 "VALID" 1 4 4 1 exPoolInput onesGrad ⟨0, 0, 0, 0⟩
      rfl (by decide) (by decide) (by decide) (by decide) (by decide) (by decide)).2.1⟩

/-- Claim C5 theorem: after a successful MaxPool2D forward (first
conjunct; pool at most stride so backward does not crash, padded sizes
stride-divisible), backward on an all-ones gradient succeeds (second
conjunct) and returns, at each padded cell (y, x): 1 exactly when the
cell is the cached argmax cell of the window containing it, and 0
everywhere else — in particular 0 in the stride gaps outside every
window (third conjunct).  The cached argmax is a flat index inside the
`ph·pw` window (fourth conjunct), it attains the window maximum (fifth
conjunct: every window value is at most the value at the argmax — so
with a unique maximum, the routed cell is the maximum's cell), and
every window cell strictly before it is strictly smaller, i.e. ties
resolve to the lowest flat index (sixth conjunct). -/
theorem maxpool_backward_routes_argmax (ph pw sh sw : Nat) (mode : String)
    (inN inH inW inC : Nat) (inputs : Fun4) (pad : Pad4) (n y x c t : Nat)
    (hpad : MaxPool2D.getPadding inH inW ph pw sh sw mode = pad)
    (hsh : 1 ≤ sh) (hsw : 1 ≤ sw) (hph1 : 1 ≤ ph) (hpw1 : 1 ≤ pw)
    (hph : ph ≤ sh) (hpw : pw ≤ sw)
    (hdh : (inH + pad.top + pad.bottom) % sh = 0)
    (hdw : (inW + pad.left + pad.right) % sw = 0)
    (hy : y < inH + pad.top + pad.bottom) (hx : x < inW + pad.left + pad.right)
    (ht : t < ph * pw) :
    MaxPool2D.forward ph pw sh sw mode inN inH inW inC inputs
        = some (MaxPool2D.forwardFrom pad ph pw sh sw inN inH inW inC inputs) ∧
    MaxPool2D.backward (MaxPool2D.forwardFrom pad ph pw sh sw inN inH inW inC inputs).2 onesGrad
        = some (MaxPool2D.backwardParts
            (MaxPool2D.forwardFrom pad ph pw sh sw inN inH inW inC inputs).2 onesGrad) ∧
    (MaxPool2D.backwardParts
        (MaxPool2D.forwardFrom pad ph pw sh sw inN inH inW inC inputs).2 onesGrad).2 n y x c
      = (if y % sh < ph ∧ x % sw < pw ∧
            y % sh * pw + x % sw
              = (MaxPool2D.forwardFrom pad ph pw sh sw inN inH inW inC inputs).2.maxPos
                  n (y / sh) (x / sw) c then 1 else 0) ∧
    (MaxPool2D.forwardFrom pad ph pw sh sw inN inH inW inC inputs).2.maxPos
        n (y / sh) (x / sw) c < ph * pw ∧
    zeroPad inputs inH inW pad.top pad.left n (y / sh * sh + t / pw) (x / sw * sw + t % pw) c
      ≤ zeroPad inputs inH inW pad.top pad.left n
          (y / sh * sh
            + (MaxPool2D.forwardFrom pad ph pw sh sw inN inH inW inC inputs).2.maxPos
                n (y / sh) (x / sw) c / pw)
          (x / sw * sw
            + (MaxPool2D.forwardFrom pad ph pw sh sw inN inH inW inC inputs).2.maxPos
                n (y / sh) (x / sw) c % pw) c ∧
    (t < (MaxPool2D.forwardFrom pad ph pw sh sw inN inH inW inC inputs).2.maxPos
        n (y / sh) (x / sw) c →
      zeroPad inputs inH inW pad.top pad.left n (y / sh * sh + t / pw) (x / sw * sw + t % pw) c
        < zeroPad inputs inH inW pad.top pad.left n
            (y / sh * sh
              + (MaxPool2D.forwardFrom pad ph pw sh sw inN inH inW inC inputs).2.maxPos
                  n (y / sh) (x / sw) c / pw)
            (x / sw * sw
              + (MaxPool2D.forwardFrom pad ph pw sh sw inN inH inW inC inputs).2.maxPos
                  n (y / sh) (x / sw) c % pw) c) := by
  have hiy : y / sh < (inH + pad.top + pad.bottom) / sh :=
    Nat.div_lt_div_of_lt_of_dvd (Nat.dvd_of_mod_eq_zero hdh) hy
  have hjx : x / sw < (inW + pad.left + pad.right) / sw :=
    Nat.div_lt_div_of_lt_of_dvd (Nat.dvd_of_mod_eq_zero hdw) hx
  have hmp := maxpool_forwardFrom_maxPos pad ph pw sh sw inN inH inW inC inputs
    (y / sh) (x / sw) hsh hsw hph hpw hdh hdw hiy hjx
  have hM : 1 ≤ ph * pw := by
    have h := Nat.mul_le_mul hph1 hpw1
    simpa using h
  have hspec := argmaxIdx_spec (fun u => zeroPad inputs inH inW pad.top pad.left n
      (y / sh * sh + u / pw) (x / sw * sw + u % pw) c) (ph * pw) hM
  refine ⟨maxpool_forward_eq ph pw sh sw mode inN inH inW inC inputs pad hpad hsh hsw hdh hdw,
    maxpool_backward_total _ onesGrad hsh hsw hph hpw hdh hdw, ?_, ?_, ?_, ?_⟩
  · have hfold : (MaxPool2D.backwardParts
          (MaxPool2D.forwardFrom pad ph pw sh sw inN inH inW inC inputs).2 onesGrad).2 n y x c
        = (positions ((inH + pad.top + pad.bottom + sh - 1) / sh)
              ((inW + pad.left + pad.right + sw - 1) / sw)).foldl
            (MaxPool2D.writeRegion
              (MaxPool2D.forwardFrom pad ph pw sh sw inN inH inW inC inputs).2 onesGrad)
            (fun _ _ _ _ => 0) n y x c := rfl
    rw [hfold, foldl_writeRegion_apply _ _ hsh hsw hph hpw]
    have hsH : (MaxPool2D.forwardFrom pad ph pw sh sw inN inH inW inC inputs).2.sH = sh := rfl
    have hsW : (MaxPool2D.forwardFrom pad ph pw sh sw inN inH inW inC inputs).2.sW = sw := rfl
    have hpoolH : (MaxPool2D.forwardFrom pad ph pw sh sw inN inH inW inC inputs).2.poolH
        = ph := rfl
    have hpoolW : (MaxPool2D.forwardFrom pad ph pw sh sw inN inH inW inC inputs).2.poolW
        = pw := rfl
    rw [hsH, hsW, hpoolH, hpoolW]
    have hmem : (y / sh, x / sw) ∈ positions ((inH + pad.top + pad.bottom + sh - 1) / sh)
        ((inW + pad.left + pad.right + sw - 1) / sw) := by
      refine mem_positions.mpr ⟨?_, ?_⟩
      · rw [ceil_div_of_dvd hsh hdh]
        exact hiy
      · rw [ceil_div_of_dvd hsw hdw]
        exact hjx
    by_cases hb : y % sh < ph ∧ x % sw < pw
    · by_cases hf : y % sh * pw + x % sw
          = (MaxPool2D.forwardFrom pad ph pw sh sw inN inH inW inC inputs).2.maxPos
              n (y / sh) (x / sw) c
      · conv_lhs => rw [if_pos (⟨hmem, hb.1, hb.2⟩ :
          (y / sh, x / sw) ∈ positions ((inH + pad.top + pad.bottom + sh - 1) / sh)
              ((inW + pad.left + pad.right + sw - 1) / sw) ∧
            y % sh < ph ∧ x % sw < pw), if_pos hf]
        conv_rhs => rw [if_pos (⟨hb.1, hb.2, hf⟩ : y % sh < ph ∧ x % sw < pw ∧
          y % sh * pw + x % sw
            = (MaxPool2D.forwardFrom pad ph pw sh sw inN inH inW inC inputs).2.maxPos
                n (y / sh) (x / sw) c)]
        rfl
      · conv_lhs => rw [if_pos (⟨hmem, hb.1, hb.2⟩ :
          (y / sh, x / sw) ∈ positions ((inH + pad.top + pad.bottom + sh - 1) / sh)
              ((inW + pad.left + pad.right + sw - 1) / sw) ∧
            y % sh < ph ∧ x % sw < pw), if_neg hf]
        conv_rhs => rw [if_neg (fun hcon => hf hcon.2.2 : ¬(y % sh < ph ∧ x % sw < pw ∧
          y % sh * pw + x % sw
            = (MaxPool2D.forwardFrom pad ph pw sh sw inN inH inW inC inputs).2.maxPos
                n (y / sh) (x / sw) c))]
    · conv_lhs => rw [if_neg (fun hcon => hb ⟨hcon.2.1, hcon.2.2⟩ :
        ¬((y / sh, x / sw) ∈ positions ((inH + pad.top + pad.bottom + sh - 1) / sh)
              ((inW + pad.left + pad.right + sw - 1) / sw) ∧
          y % sh < ph ∧ x % sw < pw))]
      conv_rhs => rw [if_neg (fun hcon => hb ⟨hcon.1, hcon.2.1⟩ :
        ¬(y % sh < ph ∧ x % sw < pw ∧
          y % sh * pw + x % sw
            = (MaxPool2D.forwardFrom pad ph pw sh sw inN inH inW inC inputs).2.maxPos
                n (y / sh) (x / sw) c))]
  · rw [hmp n c]
    exact hspec.1
  · rw [hmp n c]
    exact hspec.2.1 t ht
  · rw [hmp n c]
    intro hlt
    exact hspec.2.2 t hlt

/-- Witness for the C5 theorem: pool (2,2), stride (2,2), VALID mode on
the increasing 1×4×4×1 input, at cell (0, 0, 0, 0) and window flat
index 0. -/
theorem maxpool_backward_routes_argmax_witness :
    MaxPool2D.getPadding 4 4 2 2 2 2 "VALID" = (⟨0, 0, 0, 0⟩ : Pad4) ∧
    (MaxPool2D.forward 2 2 2 2 "VALID" 1 4 4 1 exPoolInput
        = some (MaxPool2D.forwardFrom ⟨0, 0, 0, 0⟩ 2 2 2 2 1 4 4 1 exPoolInput) ∧
      MaxPool2D.backward
          (MaxPool2D.forwardFrom ⟨0, 0, 0, 0⟩ 2 2 2 2 1 4 4 1 exPoolInput).2 onesGrad
        = some (MaxPool2D.backwardParts
            (MaxPool2D.forwardFrom ⟨0, 0, 0, 0⟩ 2 2 2 2 1 4 4 1 exPoolInput).2 onesGrad) ∧
      (MaxPool2D.backwardParts
          (MaxPool2D.forwardFrom ⟨0, 0, 0, 0⟩ 2 2 2 2 1 4 4 1 exPoolInput).2 onesGrad).2 0 0 0 0
        = (if 0 % 2 < 2 ∧ 0 % 2 < 2 ∧
              0 % 2 * 2 + 0 % 2
                = (MaxPool2D.forwardFrom ⟨0, 0, 0, 0⟩ 2 2 2 2 1 4 4 1 exPoolInput).2.maxPos
                    0 (0 / 2) (0 / 2) 0 then 1 else 0) ∧
      (MaxPool2D.forwardFrom ⟨0, 0, 0, 0⟩ 2 2 2 2 1 4 4 1 exPoolInput).2.maxPos
          0 (0 / 2) (0 / 2) 0 < 2 * 2 ∧
      zeroPad exPoolInput 4 4 0 0 0 (0 / 2 * 2 + 0 / 2) (0 / 2 * 2 + 0 % 2) 0
        ≤ zeroPad exPoolInput 4 4 0 0 0
            (0 / 2 * 2
              + (MaxPool2D.forwardFrom ⟨0, 0, 0, 0⟩ 2 2 2 2 1 4 4 1 exPoolInput).2.maxPos
                  0 (0 / 2) (0 / 2) 0 / 2)
            (0 / 2 * 2
              + (MaxPool2D.forwardFrom ⟨0, 0, 0, 0⟩ 2 2 2 2 1 4 4 1 exPoolInput).2.maxPos
                  0 (0 / 2) (0 / 2) 0 % 2) 0 ∧
      (0 < (MaxPool2D.forwardFrom ⟨0, 0, 0, 0⟩ 2 2 2 2 1 4 4 1 exPoolInput).2.maxPos
          0 (0 / 2) (0 / 2) 0 →
        zeroPad exPoolInput 4 4 0 0 0 (0 / 2 * 2 + 0 / 2) (0 / 2 * 2 + 0 % 2) 0
          < zeroPad exPoolInput 4 4 0 0 0
              (0 / 2 * 2
                + (MaxPool2D.forwardFrom ⟨0, 0, 0, 0⟩ 2 2 2 2 1 4 4 1 exPoolInput).2.maxPos
                    0 (0 / 2) (0 / 2) 0 / 2)
              (0 / 2 * 2
                + (MaxPool2D.forwardFrom ⟨0, 0, 0, 0⟩ 2 2 2 2 1 4 4 1 exPoolInput).2.maxPos
                    0 (0 / 2) (0 / 2) 0 % 2) 0)) :=
  ⟨rfl,
    maxpool_backward_routes_argmax 2 2 2 2 "VALID" 1 4 4 1 exPoolInput ⟨0, 0, 0, 0⟩ 0 0 0 0 0
      rfl (by decide) (by decide) (by decide) (by decide) (by decide) (by decide)
      (by decide) (by decide) (by decide) (by decide) (by decide)⟩

end TinyNN
